import Mathlib

/-!
Verification of the conversation-lifecycle tracker, the extraction heuristics,
the retrieval pipeline and the expert router of the RecycleOps assistant,
shallowly embedded from the Python sources under src/.

Timestamps are modelled as integer seconds; the fixed deferral delay
timedelta(hours=12) of src/database/repositories.py is 43200 seconds.
-/

namespace RecycleOps

/-- Severity levels, from the SeverityLevel enum in src/database/models.py. -/
inductive SeverityLevel where
  | critical
  | high
  | medium
  | low
  | info
deriving DecidableEq, Repr

/-- Python truthiness of an optional string: None and the empty string are falsy. -/
def pyTruthy : Option String → Bool
  | none => false
  | some s => !s.isEmpty

/-- Conversation row, from the Conversation model in src/database/models.py
(columns not touched by the verified operations are omitted; the uuid primary
key is replaced by the (channel_id, thread_ts) natural key the code queries by). -/
structure Conversation where
  channel_id : String
  thread_ts : String
  first_message_ts : Int
  last_message_ts : Int
  message_count : Nat
  is_error_thread : Bool
  detected_error_pattern : Option String
  severity : Option SeverityLevel
  is_processed : Bool
  is_resolved : Option Bool
  process_after : Int
  processed_at : Option Int
  extracted_solution_id : Option Nat
deriving DecidableEq, Repr

/-- The fixed 12-hour deferral delay (timedelta(hours=12)), in seconds. -/
def twelveHours : Int := 12 * 60 * 60

namespace ConversationRepository

/-- ConversationRepository.create_or_update (src/database/repositories.py,
lines 145-195), modelled per (channel_id, thread_ts) key: the argument
existing is the row found by the select on that key, none when absent.
Fields follow the two branches of the Python code; note that the update
branch unconditionally sets is_processed = False and recomputes
process_after = message_ts + 12h. -/
def create_or_update (existing : Option Conversation) (channel_id thread_ts : String)
    (message_ts : Int) (is_error_thread : Bool) (detected_error_pattern : Option String)
    (severity : Option SeverityLevel) : Conversation :=
  match existing with
  | some conversation =>
      { conversation with
        last_message_ts := message_ts
        message_count := conversation.message_count + 1
        is_error_thread := conversation.is_error_thread || is_error_thread
        detected_error_pattern :=
          if pyTruthy detected_error_pattern then detected_error_pattern
          else conversation.detected_error_pattern
        severity := if severity.isSome then severity else conversation.severity
        process_after := message_ts + twelveHours
        is_processed := false }
  | none =>
      { channel_id := channel_id
        thread_ts := thread_ts
        first_message_ts := message_ts
        last_message_ts := message_ts
        message_count := 1
        is_error_thread := is_error_thread
        detected_error_pattern := detected_error_pattern
        severity := severity
        is_processed := false
        is_resolved := none
        process_after := message_ts + twelveHours
        processed_at := none
        extracted_solution_id := none }

/-- ConversationRepository.mark_as_processed (src/database/repositories.py,
lines 217-233), modelled as the row update it performs. -/
def mark_as_processed (c : Conversation) (solution_id : Option Nat)
    (is_resolved : Bool) (now : Int) : Conversation :=
  { c with
    is_processed := true
    processed_at := some now
    extracted_solution_id := solution_id
    is_resolved := some is_resolved }

/-- The WHERE clause of ConversationRepository.get_pending_for_processing. -/
def pendingPred (now : Int) (c : Conversation) : Bool :=
  !c.is_processed && c.is_error_thread && decide (c.process_after ≤ now)

/-- Ordering used by the ORDER BY process_after clause. -/
def processAfterLE (a b : Conversation) : Prop :=
  a.process_after ≤ b.process_after

instance : DecidableRel processAfterLE := fun a b =>
  inferInstanceAs (Decidable (a.process_after ≤ b.process_after))

instance : IsTotal Conversation processAfterLE :=
  ⟨fun a b => le_total a.process_after b.process_after⟩

instance : IsTrans Conversation processAfterLE :=
  ⟨fun _ _ _ h h2 => le_trans h h2⟩

/-- ConversationRepository.get_pending_for_processing (src/database/repositories.py,
lines 197-215): filter on is_processed = false, is_error_thread = true and
process_after ≤ now, order ascending by process_after, limit the batch. -/
def get_pending_for_processing (db : List Conversation) (now : Int)
    (limit : Nat) : List Conversation :=
  (List.insertionSort processAfterLE (db.filter (pendingPred now))).take limit

end ConversationRepository

/-- One inbound message event on a thread, as classified by the event layer
before it reaches ConversationRepository.create_or_update. -/
structure MessageEvent where
  ts : Int
  is_candidate_error : Bool
  detected_pattern : Option String
  severity : Option SeverityLevel
deriving DecidableEq, Repr

/-- Folding a sequence of message events of one (channel, thread) through
ConversationRepository.create_or_update, starting from no record. -/
def record_thread (channel_id thread_ts : String)
    (msgs : List MessageEvent) : Option Conversation :=
  msgs.foldl
    (fun st m =>
      some (ConversationRepository.create_or_update st channel_id thread_ts
        m.ts m.is_candidate_error m.detected_pattern m.severity))
    none

section ConversationLemmas

open ConversationRepository

/-- Both branches of create_or_update put the new message timestamp plus the
fixed delay into process_after, and the timestamp into last_message_ts. -/
theorem create_or_update_process_after (existing : Option Conversation)
    (ch th : String) (ts : Int) (e : Bool) (p : Option String)
    (s : Option SeverityLevel) :
    (create_or_update existing ch th ts e p s).process_after = ts + twelveHours ∧
      (create_or_update existing ch th ts e p s).last_message_ts = ts := by
  cases existing <;> exact ⟨rfl, rfl⟩

theorem record_thread_step (st : Option Conversation) (ch th : String)
    (init : List MessageEvent) (m : MessageEvent) :
    ∃ c,
      (init ++ [m]).foldl
        (fun st m =>
          some (create_or_update st ch th m.ts m.is_candidate_error
            m.detected_pattern m.severity)) st = some c ∧
      c.process_after = m.ts + twelveHours ∧ c.last_message_ts = m.ts := by
  rw [List.foldl_append]
  exact ⟨_, rfl, create_or_update_process_after _ ch th _ _ _ _⟩

/-- Folding create_or_update over further messages from an existing record
yields a record whose error flag is the OR of the existing flag and the
candidate-error flags of the new messages. -/
theorem record_thread_error_aux (ch th : String) :
    ∀ (msgs : List MessageEvent) (c : Conversation),
      ∃ d,
        msgs.foldl
          (fun st m =>
            some (create_or_update st ch th m.ts m.is_candidate_error
              m.detected_pattern m.severity)) (some c) = some d ∧
        d.is_error_thread =
          (c.is_error_thread || msgs.any (·.is_candidate_error)) := by
  intro msgs
  induction msgs with
  | nil =>
      intro c
      exact ⟨c, rfl, by simp⟩
  | cons m t ih =>
      intro c
      obtain ⟨d, hd, herr⟩ :=
        ih (create_or_update (some c) ch th m.ts m.is_candidate_error
          m.detected_pattern m.severity)
      refine ⟨d, hd, ?_⟩
      rw [herr]
      simp [create_or_update, List.any_cons, Bool.or_assoc]

end ConversationLemmas

section ConversationClaims

open ConversationRepository

/-- C3: for every nonempty sequence of messages recorded on the same
(channel, thread) via create_or_update, after the last message the
conversation record exists and its process_after equals the last message
timestamp plus the fixed 12-hour delay: the deadline is recomputed from the
latest message on every update, not fixed at creation. -/
theorem claim_C3_process_after_recomputed (channel_id thread_ts : String)
    (msgs : List MessageEvent) (h : msgs ≠ []) :
    ∃ c, record_thread channel_id thread_ts msgs = some c ∧
      c.process_after = (msgs.getLast h).ts + twelveHours ∧
      c.last_message_ts = (msgs.getLast h).ts := by
  obtain ⟨c, hc, hpa, hlm⟩ :=
    record_thread_step none channel_id thread_ts msgs.dropLast (msgs.getLast h)
  rw [List.dropLast_append_getLast h] at hc
  exact ⟨c, hc, hpa, hlm⟩

theorem claim_C3_witness :
    ∃ c,
      record_thread "C1" "T1"
        [⟨0, true, none, none⟩, ⟨100, false, none, none⟩] = some c ∧
      c.process_after = 100 + twelveHours ∧ c.last_message_ts = 100 := by
  have := claim_C3_process_after_recomputed "C1" "T1"
    [⟨0, true, none, none⟩, ⟨100, false, none, none⟩] (by simp)
  simpa using this

/-- C5: after recording a sequence of messages on one (channel, thread), the
conversation record has is_error_thread = true exactly when at least one
message of the sequence was classified as an error candidate; a later
non-error message never clears the flag (monotonic OR). -/
theorem claim_C5_error_flag_monotonic_or (channel_id thread_ts : String)
    (msgs : List MessageEvent) (c : Conversation)
    (h : record_thread channel_id thread_ts msgs = some c) :
    (c.is_error_thread = true ↔ ∃ m ∈ msgs, m.is_candidate_error = true) := by
  cases msgs with
  | nil => simp [record_thread] at h
  | cons m t =>
      obtain ⟨d, hd, herr⟩ := record_thread_error_aux channel_id thread_ts t
        (create_or_update none channel_id thread_ts m.ts m.is_candidate_error
          m.detected_pattern m.severity)
      have h' : t.foldl
          (fun st m =>
            some (create_or_update st channel_id thread_ts m.ts
              m.is_candidate_error m.detected_pattern m.severity))
          (some (create_or_update none channel_id thread_ts m.ts
            m.is_candidate_error m.detected_pattern m.severity)) = some c := h
      rw [h'] at hd
      cases Option.some.inj hd
      rw [herr]
      show ((create_or_update none channel_id thread_ts m.ts m.is_candidate_error
        m.detected_pattern m.severity).is_error_thread
          || t.any (·.is_candidate_error)) = true ↔ _
      simp [create_or_update, List.any_eq_true]

theorem claim_C5_witness :
    ((⟨"C1", "T1", 0, 5, 2, true, none, none, false, none, 5 + twelveHours,
        none, none⟩ : Conversation).is_error_thread = true ↔
      ∃ m ∈ [(⟨0, false, none, none⟩ : MessageEvent), ⟨5, true, none, none⟩],
        m.is_candidate_error = true) :=
  claim_C5_error_flag_monotonic_or "C1" "T1"
    [⟨0, false, none, none⟩, ⟨5, true, none, none⟩] _ (by decide)

/-- C2 counterexample: a conversation marked processed is reopened by the very
next create_or_update call on the same (channel, thread): the update branch
unconditionally sets is_processed back to false, so is_processed = true is
not a terminal state. -/
theorem claim_C2_counterexample :
    (ConversationRepository.mark_as_processed
      (ConversationRepository.create_or_update none "C1" "T1" 0 true none none)
      (some 7) true 50).is_processed = true ∧
    (ConversationRepository.create_or_update
      (some (ConversationRepository.mark_as_processed
        (ConversationRepository.create_or_update none "C1" "T1" 0 true none none)
        (some 7) true 50))
      "C1" "T1" 60 false none none).is_processed = false :=
  ⟨rfl, rfl⟩

/-- C2 amended: is_processed = true is not terminal. mark_as_processed sets
is_processed to true, but every later create_or_update call for a new message
on the same (channel, thread) resets is_processed to false, reopening the
conversation; the flag therefore only persists while no further message is
recorded on the thread. -/
theorem claim_C2_amended_reopen_on_new_message :
    (∀ (c : Conversation) (sol : Option Nat) (res : Bool) (now : Int),
      (ConversationRepository.mark_as_processed c sol res now).is_processed = true) ∧
    (∀ (c : Conversation) (ch th : String) (ts : Int) (e : Bool)
      (p : Option String) (s : Option SeverityLevel),
      (ConversationRepository.create_or_update (some c) ch th ts e p s).is_processed
        = false) :=
  ⟨fun _ _ _ _ => rfl, fun _ _ _ _ _ _ _ => rfl⟩

/-- C4: the scheduler poll selection (get_pending_for_processing with the batch
size 50 used by the analyzer) returns only conversations with
is_processed = false, is_error_thread = true and process_after ≤ now, in
ascending process_after order, at most 50 of them; and whenever at most 50
conversations qualify, every qualifying conversation of the store is selected. -/
theorem claim_C4_pending_selection (db : List Conversation) (now : Int) :
    (∀ c ∈ get_pending_for_processing db now 50,
        c.is_processed = false ∧ c.is_error_thread = true ∧ c.process_after ≤ now) ∧
    (get_pending_for_processing db now 50).length ≤ 50 ∧
    List.Pairwise processAfterLE (get_pending_for_processing db now 50) ∧
    ((db.filter (pendingPred now)).length ≤ 50 →
      ∀ c ∈ db, c.is_processed = false → c.is_error_thread = true →
        c.process_after ≤ now → c ∈ get_pending_for_processing db now 50) := by
  refine ⟨?_, ?_, ?_, ?_⟩
  · intro c hc
    have hmem : c ∈ db.filter (pendingPred now) :=
      (List.perm_insertionSort processAfterLE _).subset
        (List.take_subset _ _ hc)
    have hp := (List.mem_filter.mp hmem).2
    simp only [pendingPred, Bool.and_eq_true, Bool.not_eq_true',
      decide_eq_true_eq] at hp
    exact ⟨hp.1.1, hp.1.2, hp.2⟩
  · exact List.length_take_le _ _
  · exact List.Pairwise.sublist (List.take_sublist _ _)
      (List.sorted_insertionSort processAfterLE _)
  · intro hlen c hcdb h1 h2 h3
    have hp : pendingPred now c = true := by
      simp only [pendingPred, Bool.and_eq_true, Bool.not_eq_true',
        decide_eq_true_eq]
      exact ⟨⟨h1, h2⟩, h3⟩
    have hmem : c ∈ List.insertionSort processAfterLE (db.filter (pendingPred now)) :=
      (List.perm_insertionSort processAfterLE _).mem_iff.mpr
        (List.mem_filter.mpr ⟨hcdb, hp⟩)
    have hall : (List.insertionSort processAfterLE (db.filter (pendingPred now))).take 50
        = List.insertionSort processAfterLE (db.filter (pendingPred now)) := by
      refine List.take_of_length_le ?_
      rw [(List.perm_insertionSort processAfterLE _).length_eq]
      exact hlen
    rw [get_pending_for_processing, hall]
    exact hmem

theorem claim_C4_witness :
    (⟨"C1", "T1", 0, 0, 1, true, none, none, false, none, 100, none, none⟩ :
        Conversation) ∈
      get_pending_for_processing
        [⟨"C1", "T1", 0, 0, 1, true, none, none, false, none, 100, none, none⟩]
        1000 50 :=
  (claim_C4_pending_selection
    [⟨"C1", "T1", 0, 0, 1, true, none, none, false, none, 100, none, none⟩]
    1000).2.2.2 (by decide) _ (by decide) rfl rfl (by decide)

end ConversationClaims

/-- One raw hit of the chroma nearest-neighbour query in
VectorStore.search_solutions: an id, a cosine distance, the stored document
and its metadata, listed nearest first. Distances are modelled as rationals. -/
structure QueryHit where
  hitId : String
  distance : ℚ
  document : String
  metadata : List (String × String)
deriving DecidableEq, Repr

/-- One element of the list built by VectorStore.search_solutions. -/
structure SearchResult where
  resId : String
  document : String
  metadata : List (String × String)
  similarity : ℚ
deriving DecidableEq, Repr

namespace VectorStore

/-- VectorStore.search_solutions (src/database/vector_store.py, lines 170-222).
The chroma query result (already bounded by n_results, scoped by the metadata
filter and ordered nearest first) is the hits argument; the loop converts each
distance to similarity = 1 - distance and appends the hits whose similarity
reaches min_similarity, preserving order. An empty hit list, as returned for
an empty index, yields the empty result list. -/
def search_solutions (hits : List QueryHit) (min_similarity : ℚ) : List SearchResult :=
  match hits with
  | [] => []
  | h :: t =>
      let similarity := 1 - h.distance
      if min_similarity ≤ similarity then
        ⟨h.hitId, h.document, h.metadata, similarity⟩ ::
          search_solutions t min_similarity
      else search_solutions t min_similarity

theorem search_solutions_spec (hits : List QueryHit) (m : ℚ) :
    ∀ r ∈ search_solutions hits m,
      m ≤ r.similarity ∧
        ∃ h ∈ hits, r.similarity = 1 - h.distance ∧ r.resId = h.hitId ∧
          r.document = h.document := by
  induction hits with
  | nil => intro r hr; simp [search_solutions] at hr
  | cons h t ih =>
      intro r hr
      rw [search_solutions] at hr
      by_cases hc : m ≤ 1 - h.distance
      · rw [if_pos hc] at hr
        rcases List.mem_cons.mp hr with h1 | h2
        · subst h1
          exact ⟨hc, h, List.mem_cons_self _ _, rfl, rfl, rfl⟩
        · obtain ⟨hm, h0, hh0, hsim⟩ := ih r h2
          exact ⟨hm, h0, List.mem_cons_of_mem _ hh0, hsim⟩
      · rw [if_neg hc] at hr
        obtain ⟨hm, h0, hh0, hsim⟩ := ih r hr
        exact ⟨hm, h0, List.mem_cons_of_mem _ hh0, hsim⟩

theorem search_solutions_sublist (hits : List QueryHit) (m : ℚ) :
    List.Sublist ((search_solutions hits m).map (·.resId))
      (hits.map (·.hitId)) := by
  induction hits with
  | nil => simp [search_solutions]
  | cons h t ih =>
      rw [search_solutions]
      by_cases hc : m ≤ 1 - h.distance
      · rw [if_pos hc]
        exact List.Sublist.cons₂ _ ih
      · rw [if_neg hc]
        exact List.Sublist.cons _ ih

end VectorStore

/-- C7: in solution search every returned item carries
similarity = 1 - distance of a hit with the same id and document, items below
min_similarity are excluded, the nearest-first order of the index is preserved
among the survivors (the returned ids form an order-preserving sublist of the
hit ids), an empty index yields the empty list, and concretely a hit at
distance 0.2 comes back with similarity 0.8. -/
theorem claim_C7_search_similarity :
    (∀ (hits : List QueryHit) (m : ℚ),
      (∀ r ∈ VectorStore.search_solutions hits m,
        m ≤ r.similarity ∧
          ∃ h ∈ hits, r.similarity = 1 - h.distance ∧ r.resId = h.hitId ∧
            r.document = h.document) ∧
      List.Sublist ((VectorStore.search_solutions hits m).map (·.resId))
        (hits.map (·.hitId)) ∧
      VectorStore.search_solutions [] m = []) ∧
    VectorStore.search_solutions [⟨"s1", 2/10, "doc", []⟩] 0 =
      [⟨"s1", "doc", [], 8/10⟩] := by
  refine ⟨fun hits m => ⟨VectorStore.search_solutions_spec hits m,
    VectorStore.search_solutions_sublist hits m, rfl⟩, ?_⟩
  norm_num [VectorStore.search_solutions]

theorem claim_C7_witness :
    (0 : ℚ) ≤ (8/10 : ℚ) ∧
      ∃ h ∈ [(⟨"s1", 2/10, "doc", []⟩ : QueryHit)],
        (8/10 : ℚ) = 1 - h.distance ∧ "s1" = h.hitId ∧ "doc" = h.document := by
  have h := (claim_C7_search_similarity.1 [⟨"s1", 2/10, "doc", []⟩] 0).1
    ⟨"s1", "doc", [], 8/10⟩ (by rw [claim_C7_search_similarity.2]; exact List.mem_singleton.mpr rfl)
  exact h

/-- Expert row, from the Expert model in src/database/models.py (columns the
verified operations do not read are omitted; the ARRAY columns, nullable in
the schema and defaulted to [] by every reader, are modelled as lists). -/
structure Expert where
  slack_user_id : String
  display_name : Option String
  expertise_areas : List String
  machine_types : List String
  solution_count : Nat
  response_count : Nat
  is_available : Bool
deriving DecidableEq, Repr

namespace ExpertRepository

/-- Ordering of the ORDER BY solution_count DESC clauses. -/
def solutionCountGE (a b : Expert) : Prop :=
  b.solution_count ≤ a.solution_count

instance : DecidableRel solutionCountGE := fun a b =>
  inferInstanceAs (Decidable (b.solution_count ≤ a.solution_count))

instance : IsTotal Expert solutionCountGE :=
  ⟨fun a b => le_total b.solution_count a.solution_count⟩

instance : IsTrans Expert solutionCountGE :=
  ⟨fun _ _ _ h h2 => le_trans h2 h⟩

/-- ExpertRepository.find_by_machine_type (src/database/repositories.py,
lines 345-362): available experts whose machine_types array contains the
machine type, ordered by solution_count descending, limited. -/
def find_by_machine_type (db : List Expert) (machine_type : String)
    (limit : Nat) : List Expert :=
  (List.insertionSort solutionCountGE
    (db.filter (fun e => e.machine_types.contains machine_type && e.is_available))).take
    limit

/-- ExpertRepository.find_by_expertise (src/database/repositories.py,
lines 326-343): available experts whose expertise_areas array contains the
area, ordered by solution_count descending, limited. -/
def find_by_expertise (db : List Expert) (expertise_area : String)
    (limit : Nat) : List Expert :=
  (List.insertionSort solutionCountGE
    (db.filter (fun e => e.expertise_areas.contains expertise_area && e.is_available))).take
    limit

/-- ExpertRepository.get_top_experts (src/database/repositories.py,
lines 364-372): available experts by solution_count descending, limited. -/
def get_top_experts (db : List Expert) (limit : Nat) : List Expert :=
  (List.insertionSort solutionCountGE (db.filter (·.is_available))).take limit

end ExpertRepository

namespace ExpertService

/-- Stage one of ExpertService.find_experts (src/services/expert_service.py,
lines 62-68): the machine_type argument is the value after the auto-detection
at lines 54-56, either none or a nonempty detected/requested machine type. -/
def machineStage (db : List Expert) (machine_type : Option String)
    (limit : Nat) : List Expert :=
  match machine_type with
  | some mt => ExpertRepository.find_by_machine_type db mt limit
  | none => []

/-- Stage two of ExpertService.find_experts (lines 70-82): experts appended
from find_by_expertise, skipping user ids already present in the stage-one
list (the existing_ids set is computed once, before the loop). -/
def categoryAdded (db : List Expert) (category : Option String)
    (s1 : List Expert) (limit : Nat) : List Expert :=
  match category with
  | some cat =>
      if s1.length < limit then
        (ExpertRepository.find_by_expertise db cat (limit - s1.length)).filter
          (fun e => !(s1.map (·.slack_user_id)).contains e.slack_user_id)
      else []
  | none => []

/-- Stage three of ExpertService.find_experts (lines 84-92): top experts
appended, skipping user ids already present after stage two. -/
def topAdded (db : List Expert) (s2 : List Expert) (limit : Nat) : List Expert :=
  if s2.length < limit then
    (ExpertRepository.get_top_experts db (limit - s2.length)).filter
      (fun e => !(s2.map (·.slack_user_id)).contains e.slack_user_id)
  else []

/-- ExpertService.find_experts (src/services/expert_service.py, lines 31-106):
machine-type stage, then category stage, then global top-up, with the final
truncation experts[:limit]. -/
def find_experts (db : List Expert) (machine_type category : Option String)
    (limit : Nat) : List Expert :=
  let s1 := machineStage db machine_type limit
  let s2 := s1 ++ categoryAdded db category s1 limit
  let s3 := s2 ++ topAdded db s2 limit
  s3.take limit

end ExpertService

section ExpertLemmas

open ExpertRepository ExpertService

theorem stage_keys_nodup (db : List Expert) (p : Expert → Bool) (n : Nat)
    (h : (db.map (·.slack_user_id)).Nodup) :
    (((List.insertionSort solutionCountGE (db.filter p)).take n).map
      (·.slack_user_id)).Nodup := by
  refine List.Nodup.sublist
    (List.Sublist.map _ (List.take_sublist n _)) ?_
  refine ((List.perm_insertionSort solutionCountGE (db.filter p)).map
    (·.slack_user_id)).nodup_iff.mpr ?_
  exact List.Nodup.sublist (List.Sublist.map _ (List.filter_sublist db)) h

theorem machineStage_keys_nodup (db : List Expert) (mt : Option String)
    (limit : Nat) (h : (db.map (·.slack_user_id)).Nodup) :
    ((machineStage db mt limit).map (·.slack_user_id)).Nodup := by
  cases mt with
  | none => simp [machineStage]
  | some mt => exact stage_keys_nodup db _ limit h

theorem append_stage_keys_nodup (s l : List Expert)
    (hs : (s.map (·.slack_user_id)).Nodup) (hl : (l.map (·.slack_user_id)).Nodup) :
    ((s ++ l.filter
        (fun e => !(s.map (·.slack_user_id)).contains e.slack_user_id)).map
      (·.slack_user_id)).Nodup := by
  rw [List.map_append]
  refine List.Nodup.append hs
    (List.Nodup.sublist (List.Sublist.map _ (List.filter_sublist l)) hl) ?_
  intro a ha hb
  simp only [List.mem_map, List.mem_filter] at hb
  obtain ⟨e, ⟨_, he⟩, rfl⟩ := hb
  rw [Bool.not_eq_true', ← Bool.not_eq_true] at he
  exact he (List.elem_iff.mpr ha)

theorem categoryAdded_shape (db : List Expert) (cat : Option String)
    (s1 : List Expert) (limit : Nat) (h : (db.map (·.slack_user_id)).Nodup) :
    ∃ l : List Expert, (l.map (·.slack_user_id)).Nodup ∧
      categoryAdded db cat s1 limit =
        l.filter (fun e => !(s1.map (·.slack_user_id)).contains e.slack_user_id) := by
  cases cat with
  | none => exact ⟨[], by simp, rfl⟩
  | some c =>
      by_cases hlt : s1.length < limit
      · exact ⟨find_by_expertise db c (limit - s1.length),
          stage_keys_nodup db _ _ h, by rw [categoryAdded, if_pos hlt]⟩
      · exact ⟨[], by simp, by rw [categoryAdded, if_neg hlt]; simp⟩

theorem topAdded_shape (db : List Expert) (s2 : List Expert) (limit : Nat)
    (h : (db.map (·.slack_user_id)).Nodup) :
    ∃ l : List Expert, (l.map (·.slack_user_id)).Nodup ∧
      topAdded db s2 limit =
        l.filter (fun e => !(s2.map (·.slack_user_id)).contains e.slack_user_id) := by
  by_cases hlt : s2.length < limit
  · exact ⟨get_top_experts db (limit - s2.length), stage_keys_nodup db _ _ h,
      by rw [topAdded, if_pos hlt]⟩
  · exact ⟨[], by simp, by rw [topAdded, if_neg hlt]; simp⟩

theorem categoryAdded_length (db : List Expert) (cat : Option String)
    (s1 : List Expert) (limit : Nat) :
    (categoryAdded db cat s1 limit).length ≤ limit - s1.length := by
  cases cat with
  | none => simp [categoryAdded]
  | some c =>
      by_cases hlt : s1.length < limit
      · rw [categoryAdded, if_pos hlt]
        refine le_trans (List.length_filter_le _ _) ?_
        exact List.length_take_le _ _
      · rw [categoryAdded, if_neg hlt]; simp

end ExpertLemmas

/-- C9: expert lookup composes the machine-type stage, the category stage and
the global top-up with per-stage deduplication by slack user id and a final
truncation to the limit. Over any store whose experts have pairwise distinct
user ids: the result has at most limit entries and repeats no user id; the
category stage adds at most limit minus the machine-stage size experts, so
with two machine-type matches and limit 3 at most one expert is added by
category; and the machine stage returns only available experts whose
machine-type set contains the requested type, ranked by solution count
descending. -/
theorem claim_C9_expert_composition (db : List Expert)
    (mt cat : Option String) (limit : Nat)
    (hnodup : (db.map (·.slack_user_id)).Nodup) :
    (ExpertService.find_experts db mt cat limit).length ≤ limit ∧
    ((ExpertService.find_experts db mt cat limit).map (·.slack_user_id)).Nodup ∧
    (ExpertService.categoryAdded db cat (ExpertService.machineStage db mt limit)
        limit).length ≤ limit - (ExpertService.machineStage db mt limit).length ∧
    ((ExpertService.machineStage db mt limit).length = 2 → limit = 3 →
      (ExpertService.categoryAdded db cat (ExpertService.machineStage db mt limit)
        limit).length ≤ 1) ∧
    (∀ mt', mt = some mt' →
      ∀ e ∈ ExpertService.machineStage db mt limit,
        e.is_available = true ∧ mt' ∈ e.machine_types) ∧
    List.Pairwise ExpertRepository.solutionCountGE
      (ExpertService.machineStage db mt limit) := by
  refine ⟨List.length_take_le _ _, ?_, categoryAdded_length db cat _ limit, ?_, ?_, ?_⟩
  · refine List.Nodup.sublist (List.Sublist.map _ (List.take_sublist _ _)) ?_
    obtain ⟨l2, hl2, he2⟩ :=
      categoryAdded_shape db cat (ExpertService.machineStage db mt limit) limit hnodup
    have hs2 : (((ExpertService.machineStage db mt limit) ++
        ExpertService.categoryAdded db cat (ExpertService.machineStage db mt limit)
          limit).map (·.slack_user_id)).Nodup := by
      rw [he2]
      exact append_stage_keys_nodup _ l2 (machineStage_keys_nodup db mt limit hnodup) hl2
    obtain ⟨l3, hl3, he3⟩ := topAdded_shape db
      ((ExpertService.machineStage db mt limit) ++
        ExpertService.categoryAdded db cat (ExpertService.machineStage db mt limit) limit)
      limit hnodup
    rw [he3]
    exact append_stage_keys_nodup _ l3 hs2 hl3
  · intro h2 h3
    subst h3
    have := categoryAdded_length db cat (ExpertService.machineStage db mt 3) 3
    rw [h2] at this
    exact this
  · rintro mt' rfl e he
    have hmem : e ∈ db.filter
        (fun e => e.machine_types.contains mt' && e.is_available) :=
      (List.perm_insertionSort ExpertRepository.solutionCountGE _).subset
        (List.take_subset _ _ he)
    have hp := (List.mem_filter.mp hmem).2
    rw [Bool.and_eq_true] at hp
    exact ⟨hp.2, List.elem_iff.mp hp.1⟩
  · cases mt with
    | none => simp [ExpertService.machineStage]
    | some mt' =>
        exact List.Pairwise.sublist (List.take_sublist _ _)
          (List.sorted_insertionSort ExpertRepository.solutionCountGE _)

theorem claim_C9_witness :
    (ExpertService.find_experts
        [⟨"U1", none, [], ["A1100"], 5, 0, true⟩,
         ⟨"U2", none, [], ["A1100"], 3, 0, true⟩,
         ⟨"U3", none, ["motor"], [], 2, 0, true⟩,
         ⟨"U4", none, ["motor"], [], 1, 0, true⟩]
        (some "A1100") (some "motor") 3).length ≤ 3 ∧
    ((ExpertService.find_experts
        [⟨"U1", none, [], ["A1100"], 5, 0, true⟩,
         ⟨"U2", none, [], ["A1100"], 3, 0, true⟩,
         ⟨"U3", none, ["motor"], [], 2, 0, true⟩,
         ⟨"U4", none, ["motor"], [], 1, 0, true⟩]
        (some "A1100") (some "motor") 3).map (·.slack_user_id)).Nodup ∧
    (ExpertService.categoryAdded
        [⟨"U1", none, [], ["A1100"], 5, 0, true⟩,
         ⟨"U2", none, [], ["A1100"], 3, 0, true⟩,
         ⟨"U3", none, ["motor"], [], 2, 0, true⟩,
         ⟨"U4", none, ["motor"], [], 1, 0, true⟩]
        (some "motor")
        (ExpertService.machineStage
          [⟨"U1", none, [], ["A1100"], 5, 0, true⟩,
           ⟨"U2", none, [], ["A1100"], 3, 0, true⟩,
           ⟨"U3", none, ["motor"], [], 2, 0, true⟩,
           ⟨"U4", none, ["motor"], [], 1, 0, true⟩]
          (some "A1100") 3) 3).length ≤ 1 := by
  have h := claim_C9_expert_composition
    [⟨"U1", none, [], ["A1100"], 5, 0, true⟩,
     ⟨"U2", none, [], ["A1100"], 3, 0, true⟩,
     ⟨"U3", none, ["motor"], [], 2, 0, true⟩,
     ⟨"U4", none, ["motor"], [], 1, 0, true⟩]
    (some "A1100") (some "motor") 3 (by decide)
  exact ⟨h.1, h.2.1, h.2.2.2.1 (by decide) rfl⟩

namespace SolutionExtractor

/-- Lowercasing of one character, as done by str.lower() in
SolutionExtractor._detect_category. It is modelled for the alphabet that the
keyword table and the verified inputs draw from: ASCII letters plus the
uppercase Turkish letters; dotted capital İ lowercases, as in Python, to the
two code points i followed by combining dot above. -/
def lowerChar (c : Char) : List Char :=
  if c = 'Ö' then ['ö']
  else if c = 'Ü' then ['ü']
  else if c = 'Ş' then ['ş']
  else if c = 'Ç' then ['ç']
  else if c = 'Ğ' then ['ğ']
  else if c = 'İ' then ['i', Char.ofNat 775]
  else [c.toLower]

/-- text.lower() of _detect_category, as a character list. -/
def strLower (s : String) : List Char :=
  s.toList.flatMap lowerChar

/-- CATEGORY_KEYWORDS of src/learning/extractor.py (lines 24-35), in
declaration order: Python dicts preserve insertion order, which is what the
max tie-break below iterates in. -/
def CATEGORY_KEYWORDS : List (String × List String) :=
  [("konveyör", ["konveyör", "conveyor", "bant", "taşıma", "besleme"]),
   ("sensör", ["sensör", "sensor", "algılayıcı", "fotosel"]),
   ("motor", ["motor", "servo", "sürücü", "drive", "inverter"]),
   ("hidrolik", ["hidrolik", "piston", "silindir", "pompa", "basınç"]),
   ("pnömatik", ["pnömatik", "hava", "kompresör", "valf", "valve"]),
   ("elektrik", ["elektrik", "kablo", "sigorta", "faz", "toprak"]),
   ("yazılım", ["yazılım", "plc", "hmi", "program", "kod", "software"]),
   ("mekanik", ["mekanik", "rulman", "kayış", "dişli", "mil"]),
   ("sıkışma", ["sıkışma", "tıkanma", "jam", "blokaj"]),
   ("kalibrasyon", ["kalibrasyon", "ayar", "calibration", "setup"])]

/-- The per-category score of _detect_category: the number of keywords of the
category occurring as a substring of the lowercased text. -/
def catScore (text_lower : List Char) (kws : List String) : Nat :=
  kws.countP (fun kw => decide (kw.toList <:+: text_lower))

/-- The left fold performed by Python max(d, key=d.get) over an
insertion-ordered dict: the running best is replaced only by a strictly
greater score, so the first key attaining the maximum wins. -/
def maxGo (best : String × Nat) : List (String × Nat) → String × Nat
  | [] => best
  | q :: rest => maxGo (if best.2 < q.2 then q else best) rest

/-- max over a nonempty association list, none when empty (the falsy-dict
check of _detect_category). -/
def pyMaxFirst : List (String × Nat) → Option (String × Nat)
  | [] => none
  | p :: rest => some (maxGo p rest)

/-- The category_scores dict of _detect_category: the categories with a
positive score, with their scores, in declaration order. -/
def scoreList (text : String) : List (String × Nat) :=
  CATEGORY_KEYWORDS.filterMap (fun ck =>
    if 0 < catScore (strLower text) ck.2 then
      some (ck.1, catScore (strLower text) ck.2)
    else none)

/-- SolutionExtractor._detect_category (src/learning/extractor.py,
lines 114-129). -/
def detect_category (text : String) : Option String :=
  (pyMaxFirst (scoreList text)).map (·.1)

theorem maxGo_ge_start : ∀ (rest : List (String × Nat)) (best : String × Nat),
    best.2 ≤ (maxGo best rest).2 := by
  intro rest
  induction rest with
  | nil => intro best; exact le_refl _
  | cons q t ih =>
      intro best
      rw [maxGo]
      refine le_trans ?_ (ih _)
      by_cases h : best.2 < q.2
      · rw [if_pos h]; exact le_of_lt h
      · rw [if_neg h]

/-- The element returned by the Python max fold splits its input into a
strictly smaller prefix and a no-greater suffix: the first maximum wins. -/
theorem maxGo_spec : ∀ (rest : List (String × Nat)) (best : String × Nat),
    ∃ l₁ l₂, best :: rest = l₁ ++ (maxGo best rest) :: l₂ ∧
      (∀ q ∈ l₁, q.2 < (maxGo best rest).2) ∧
      (∀ q ∈ l₂, q.2 ≤ (maxGo best rest).2) := by
  intro rest
  induction rest with
  | nil =>
      intro best
      exact ⟨[], [], rfl, by simp, by simp⟩
  | cons q t ih =>
      intro best
      rw [maxGo]
      by_cases h : best.2 < q.2
      · rw [if_pos h]
        obtain ⟨l₁, l₂, hsplit, hlt, hle⟩ := ih q
        refine ⟨best :: l₁, l₂, by rw [List.cons_append, ← hsplit], ?_, hle⟩
        intro p hp
        rcases List.mem_cons.mp hp with rfl | hp2
        · exact lt_of_lt_of_le h (maxGo_ge_start t q)
        · exact hlt p hp2
      · rw [if_neg h]
        obtain ⟨l₁, l₂, hsplit, hlt, hle⟩ := ih best
        cases l₁ with
        | nil =>
            rw [List.nil_append] at hsplit
            have hbest : best = maxGo best t := (List.cons.inj hsplit).1
            have ht : t = l₂ := (List.cons.inj hsplit).2
            refine ⟨[], q :: t, ?_, by simp, ?_⟩
            · rw [List.nil_append, ← hbest]
            · intro p hp
              rcases List.mem_cons.mp hp with rfl | hp2
              · rw [← hbest]; exact le_of_not_lt h
              · rw [ht] at hp2; exact hle p hp2
        | cons x l₁t =>
            rw [List.cons_append] at hsplit
            have hx : best = x := (List.cons.inj hsplit).1
            have ht : t = l₁t ++ (maxGo best t) :: l₂ := (List.cons.inj hsplit).2
            refine ⟨best :: q :: l₁t, l₂, ?_, ?_, hle⟩
            · rw [List.cons_append, List.cons_append, ← ht]
            · intro p hp
              have hbestlt : best.2 < (maxGo best t).2 := by
                have := hlt x (List.mem_cons_self _ _)
                rw [← hx] at this
                exact this
              rcases List.mem_cons.mp hp with rfl | hp2
              · exact hbestlt
              · rcases List.mem_cons.mp hp2 with rfl | hp3
                · exact lt_of_le_of_lt (le_of_not_lt h) hbestlt
                · exact hlt p (List.mem_cons_of_mem _ hp3)

end SolutionExtractor

/-- Recovering a split of the original list from a split of its filterMap. -/
theorem filterMap_split {α β : Type} (f : α → Option β) :
    ∀ (L : List α) (A : List β) (b : β) (B : List β),
      L.filterMap f = A ++ b :: B →
      ∃ l₁ x l₂, L = l₁ ++ x :: l₂ ∧ f x = some b ∧
        l₁.filterMap f = A ∧ l₂.filterMap f = B := by
  intro L
  induction L with
  | nil =>
      intro A b B h
      rw [List.filterMap_nil] at h
      exact absurd h.symm (by simp)
  | cons x t ih =>
      intro A b B h
      rw [List.filterMap_cons] at h
      cases hfx : f x with
      | none =>
          rw [hfx] at h
          obtain ⟨l₁, y, l₂, ht, hfy, hA, hB⟩ := ih A b B h
          exact ⟨x :: l₁, y, l₂, by rw [List.cons_append, ht], hfy,
            by rw [List.filterMap_cons, hfx, hA], hB⟩
      | some c =>
          rw [hfx] at h
          cases A with
          | nil =>
              rw [List.nil_append] at h
              have hc : c = b := (List.cons.inj h).1
              have hB : t.filterMap f = B := (List.cons.inj h).2
              exact ⟨[], x, t, rfl, by rw [hfx, hc], rfl, hB⟩
          | cons a A2 =>
              rw [List.cons_append] at h
              have hc : c = a := (List.cons.inj h).1
              have h2 : t.filterMap f = A2 ++ b :: B := (List.cons.inj h).2
              obtain ⟨l₁, y, l₂, ht, hfy, hA, hB⟩ := ih A2 b B h2
              exact ⟨x :: l₁, y, l₂, by rw [List.cons_append, ht], hfy,
                by rw [List.filterMap_cons, hfx, hA, hc], hB⟩

namespace SolutionExtractor

/-- Full characterisation of _detect_category: it returns none exactly when no
keyword of any category occurs in the lowercased text, and otherwise the first
declared category of strictly maximal positive score. -/
theorem detect_category_spec (text : String) :
    (detect_category text = none ↔
      ∀ ck ∈ CATEGORY_KEYWORDS, catScore (strLower text) ck.2 = 0) ∧
    (∀ c, detect_category text = some c →
      ∃ l₁ kws l₂, CATEGORY_KEYWORDS = l₁ ++ (c, kws) :: l₂ ∧
        0 < catScore (strLower text) kws ∧
        (∀ ck ∈ l₁, catScore (strLower text) ck.2 < catScore (strLower text) kws) ∧
        (∀ ck ∈ l₂, catScore (strLower text) ck.2 ≤ catScore (strLower text) kws)) := by
  constructor
  · rw [detect_category]
    constructor
    · intro h ck hck
      cases hs : scoreList text with
      | nil =>
          rw [scoreList, List.filterMap_eq_nil_iff] at hs
          have := hs ck hck
          by_cases hpos : 0 < catScore (strLower text) ck.2
          · rw [if_pos hpos] at this; exact absurd this (by simp)
          · exact Nat.eq_zero_of_not_pos hpos
      | cons p rest => rw [hs] at h; exact absurd h (by simp [pyMaxFirst])
    · intro h
      have hs : scoreList text = [] := by
        rw [scoreList, List.filterMap_eq_nil_iff]
        intro ck hck
        rw [h ck hck]
        simp
      rw [hs]
      rfl
  · intro c hc
    rw [detect_category] at hc
    cases hs : scoreList text with
    | nil => rw [hs] at hc; exact absurd hc (by simp [pyMaxFirst])
    | cons p rest =>
        rw [hs] at hc
        have hmax : maxGo p rest = ((maxGo p rest).1, (maxGo p rest).2) := rfl
        have hc1 : (maxGo p rest).1 = c := by
          simpa [pyMaxFirst] using hc
        obtain ⟨A, B, hsplit, hlt, hle⟩ := maxGo_spec rest p
        rw [← hs] at hsplit
        obtain ⟨l₁, x, l₂, hL, hfx, hA, hB⟩ :=
          filterMap_split _ CATEGORY_KEYWORDS A (maxGo p rest) B hsplit
        have hxpos : 0 < catScore (strLower text) x.2 := by
          by_contra hneg
          rw [if_neg hneg] at hfx
          exact absurd hfx (by simp)
        rw [if_pos hxpos] at hfx
        have hfx2 := Option.some.inj hfx
        have hxval : x.1 = c ∧ catScore (strLower text) x.2 = (maxGo p rest).2 := by
          constructor
          · rw [← hc1, ← hfx2]
          · rw [← hfx2]
        refine ⟨l₁, x.2, l₂, ?_, hxpos, ?_, ?_⟩
        · rw [← hxval.1]
          simpa using hL
        · intro ck hck
          rw [hxval.2]
          by_cases hpos : 0 < catScore (strLower text) ck.2
          · have hmem : (ck.1, catScore (strLower text) ck.2) ∈ A := by
              rw [← hA]
              refine List.mem_filterMap.mpr ⟨ck, hck, ?_⟩
              rw [if_pos hpos]
            exact hlt _ hmem
          · have h0 : catScore (strLower text) ck.2 = 0 := Nat.eq_zero_of_not_pos hpos
            rw [h0, ← hxval.2]
            exact hxpos
        · intro ck hck
          rw [hxval.2]
          by_cases hpos : 0 < catScore (strLower text) ck.2
          · have hmem : (ck.1, catScore (strLower text) ck.2) ∈ B := by
              rw [← hB]
              refine List.mem_filterMap.mpr ⟨ck, hck, ?_⟩
              rw [if_pos hpos]
            exact hle _ hmem
          · have h0 : catScore (strLower text) ck.2 = 0 := Nat.eq_zero_of_not_pos hpos
            rw [h0]
            exact Nat.zero_le _

end SolutionExtractor

/-- C6: category detection is a deterministic function of the text. When the
analysis supplies no category, each candidate category is scored by counting
its keywords occurring case-insensitively as substrings of the text, the
category of strictly highest score is returned with ties broken by the
first-declared order of CATEGORY_KEYWORDS, no keyword occurrence yields no
category, and the text "motor sürücü inverter" yields the category "motor". -/
theorem claim_C6_category_detection :
    (∀ text : String,
      (SolutionExtractor.detect_category text = none ↔
        ∀ ck ∈ SolutionExtractor.CATEGORY_KEYWORDS,
          SolutionExtractor.catScore (SolutionExtractor.strLower text) ck.2 = 0) ∧
      (∀ c, SolutionExtractor.detect_category text = some c →
        ∃ l₁ kws l₂,
          SolutionExtractor.CATEGORY_KEYWORDS = l₁ ++ (c, kws) :: l₂ ∧
          0 < SolutionExtractor.catScore (SolutionExtractor.strLower text) kws ∧
          (∀ ck ∈ l₁,
            SolutionExtractor.catScore (SolutionExtractor.strLower text) ck.2 <
              SolutionExtractor.catScore (SolutionExtractor.strLower text) kws) ∧
          (∀ ck ∈ l₂,
            SolutionExtractor.catScore (SolutionExtractor.strLower text) ck.2 ≤
              SolutionExtractor.catScore (SolutionExtractor.strLower text) kws))) ∧
    SolutionExtractor.detect_category "motor sürücü inverter" = some "motor" :=
  ⟨SolutionExtractor.detect_category_spec, by decide⟩

theorem claim_C6_witness :
    ∃ l₁ kws l₂,
      SolutionExtractor.CATEGORY_KEYWORDS = l₁ ++ ("motor", kws) :: l₂ ∧
      0 < SolutionExtractor.catScore
        (SolutionExtractor.strLower "motor sürücü inverter") kws ∧
      (∀ ck ∈ l₁,
        SolutionExtractor.catScore
          (SolutionExtractor.strLower "motor sürücü inverter") ck.2 <
        SolutionExtractor.catScore
          (SolutionExtractor.strLower "motor sürücü inverter") kws) ∧
      (∀ ck ∈ l₂,
        SolutionExtractor.catScore
          (SolutionExtractor.strLower "motor sürücü inverter") ck.2 ≤
        SolutionExtractor.catScore
          (SolutionExtractor.strLower "motor sürücü inverter") kws) :=
  (claim_C6_category_detection.1 "motor sürücü inverter").2 "motor" (by decide)

namespace SolutionExtractor

/-- One Slack message dict as consumed by SolutionExtractor: the code accesses
only msg.get("text") and msg.get("user"), both of which may be absent. -/
structure Msg where
  user : Option String
  text : Option String
deriving DecidableEq, Repr

/-- The LLM analysis dict as consumed by extract_solution_data: every field is
read with dict.get and may be absent. -/
structure Analysis where
  error_summary : Option String
  root_cause : Option String
  solution : Option String
  machine_type : Option String
  category : Option String
  successful : Option Bool
deriving DecidableEq, Repr

/-- The regex-backed helpers of SolutionExtractor (machine-type patterns,
capitalized-token and word-token findall, numbered/bulleted step parsing) are
not themselves under verification here; extract_solution_data is verified for
every total instantiation of them, which subsumes the concrete regexes. -/
structure ExtractParams where
  extract_machine_type : String → Option String
  caps_words : String → List String
  pattern_words : String → List String
  extract_steps : String → Option (List String)

/-- The incrementing of one author tally entry, keeping dict insertion order. -/
def bump : List (String × Nat) → String → List (String × Nat)
  | [], u => [(u, 1)]
  | (k, n) :: t, u => if k = u then (k, n + 1) :: t else (k, n) :: bump t u

/-- The author_counts dict of _find_resolver, built over the later messages;
messages without a "user" key are skipped. -/
def tallyAuthors : List Msg → List (String × Nat) → List (String × Nat)
  | [], acc => acc
  | m :: t, acc =>
      match m.user with
      | none => tallyAuthors t acc
      | some u => tallyAuthors t (bump acc u)

/-- SolutionExtractor._find_resolver (src/learning/extractor.py,
lines 170-195): empty thread yields none; otherwise the most frequent author
of the second half of the message list, first-encountered on ties, none when
no message there carries an author. -/
def find_resolver (messages : List Msg) : Option String :=
  match messages with
  | [] => none
  | _ :: _ =>
      let mid_point := messages.length / 2
      let later_messages := messages.drop mid_point
      (pyMaxFirst (tallyAuthors later_messages [])).map (·.1)

/-- The " ".join of all message texts, each defaulted to "" when absent. -/
def joinTexts (messages : List Msg) : String :=
  String.intercalate " " (messages.map (fun m => m.text.getD ""))

/-- SolutionExtractor._build_error_pattern (lines 102-112): the summary,
prefixed by the detected machine type when one is found and not already a
substring of the summary. -/
def build_error_pattern (P : ExtractParams) (summary full_text : String) : String :=
  match P.extract_machine_type full_text with
  | some mt =>
      if decide (mt.toList <:+: summary.toList) then summary
      else mt ++ " - " ++ summary
  | none => summary

/-- Set insertion preserving first-insertion order. -/
def addKw (l : List String) (k : String) : List String :=
  if l.contains k then l else l ++ [k]

/-- SolutionExtractor._extract_keywords (lines 139-168): category keywords
present in the text, the lowercased machine type, up to 5 capitalized tokens
and up to 10 words of the error pattern, capped at 20; the Python set is
modelled as a deduplicating list. -/
def extract_keywords (P : ExtractParams) (full_text error_pattern : String) :
    List String :=
  let text_lower := strLower full_text
  let base := CATEGORY_KEYWORDS.foldl
    (fun acc ck => ck.2.foldl
      (fun acc kw => if decide (kw.toList <:+: text_lower) then addKw acc kw else acc)
      acc)
    []
  let base := match P.extract_machine_type full_text with
    | some mt => addKw base (String.mk (strLower mt))
    | none => base
  let base := ((P.caps_words full_text).take 5).foldl
    (fun acc w => addKw acc (String.mk (strLower w))) base
  let base := ((P.pattern_words (String.mk (strLower error_pattern))).take 10).foldl
    addKw base
  base.take 20

/-- The structured payload dict returned by extract_solution_data. -/
structure SolutionData where
  error_pattern : String
  solution_summary : String
  solution_text : String
  root_cause : Option String
  category : Option String
  machine_type : Option String
  keywords : List String
  steps : Option (List String)
  resolver_user_id : Option String
  successful : Bool
  source_channel_id : String
  source_thread_ts : String
deriving DecidableEq, Repr

/-- SolutionExtractor.extract_solution_data (src/learning/extractor.py,
lines 44-100). The Python "x or y" on optional strings falls through to y
when x is absent or empty (pyTruthy). -/
def extract_solution_data (P : ExtractParams) (messages : List Msg)
    (analysis : Analysis) (channel_id thread_ts : String) : SolutionData :=
  let full_text := joinTexts messages
  let error_pattern := build_error_pattern P (analysis.error_summary.getD "") full_text
  let category :=
    if pyTruthy analysis.category then analysis.category
    else detect_category full_text
  let machine_type :=
    if pyTruthy analysis.machine_type then analysis.machine_type
    else P.extract_machine_type full_text
  { error_pattern := error_pattern
    solution_summary := analysis.error_summary.getD ""
    solution_text := analysis.solution.getD ""
    root_cause := analysis.root_cause
    category := category
    machine_type := machine_type
    keywords := extract_keywords P full_text error_pattern
    steps := P.extract_steps (analysis.solution.getD "")
    resolver_user_id := find_resolver messages
    successful := analysis.successful.getD true
    source_channel_id := channel_id
    source_thread_ts := thread_ts }

theorem tallyAuthors_all_none :
    ∀ (l : List Msg) (acc : List (String × Nat)),
      (∀ m ∈ l, m.user = none) → tallyAuthors l acc = acc := by
  intro l
  induction l with
  | nil => intro acc _; rfl
  | cons m t ih =>
      intro acc h
      rw [tallyAuthors]
      rw [h m (List.mem_cons_self _ _)]
      exact ih acc (fun m hm => h m (List.mem_cons_of_mem _ hm))

end SolutionExtractor

/-- C10: extract_solution_data is total at its public interface: for every
message list (including the empty list and messages without "text" or "user"
keys), every analysis record and every instantiation of the regex helpers it
returns a structured payload whose resolver_user_id is _find_resolver of the
messages; in particular the resolver is none for an empty message list and
none when no message in the second half of the thread carries an author. -/
theorem claim_C10_extract_total (P : SolutionExtractor.ExtractParams)
    (messages : List SolutionExtractor.Msg) (analysis : SolutionExtractor.Analysis)
    (channel_id thread_ts : String) :
    (SolutionExtractor.extract_solution_data P messages analysis channel_id
        thread_ts).resolver_user_id = SolutionExtractor.find_resolver messages ∧
    (messages = [] →
      (SolutionExtractor.extract_solution_data P messages analysis channel_id
        thread_ts).resolver_user_id = none) ∧
    ((∀ m ∈ messages.drop (messages.length / 2), m.user = none) →
      (SolutionExtractor.extract_solution_data P messages analysis channel_id
        thread_ts).resolver_user_id = none) := by
  refine ⟨rfl, ?_, ?_⟩
  · rintro rfl
    rfl
  · intro h
    show SolutionExtractor.find_resolver messages = none
    cases messages with
    | nil => rfl
    | cons m t =>
        rw [SolutionExtractor.find_resolver]
        rw [SolutionExtractor.tallyAuthors_all_none _ [] h]
        rfl

theorem claim_C10_witness :
    (SolutionExtractor.extract_solution_data
        ⟨fun _ => none, fun _ => [], fun _ => [], fun _ => none⟩
        [⟨some "U1", some "problem"⟩, ⟨none, none⟩]
        ⟨some "s", none, some "fix", none, none, none⟩
        "C1" "T1").resolver_user_id = none :=
  (claim_C10_extract_total
    ⟨fun _ => none, fun _ => [], fun _ => [], fun _ => none⟩
    [⟨some "U1", some "problem"⟩, ⟨none, none⟩]
    ⟨some "s", none, some "fix", none, none, none⟩
    "C1" "T1").2.2 (by decide)

namespace ConversationAnalyzer

/-- The externally visible effects of one run of
ConversationAnalyzer._process_conversation after the thread has been fetched:
whether the conversation row is marked processed and with which is_resolved
value, whether a Solution row is created and a vector-store document added,
and the boolean the method returns. -/
structure ProcessOutcome where
  marked_processed : Bool
  is_resolved : Option Bool
  solution_created : Bool
  vector_added : Bool
  success : Bool
deriving DecidableEq, Repr

/-- ConversationAnalyzer._process_conversation (src/learning/analyzer.py,
lines 133-261), as a function of the fetched messages and the LLM analysis:
a thread of fewer than 2 messages, or an analysis whose error_summary or
solution is absent or empty (Python falsiness), marks the conversation
processed with is_resolved = False and creates nothing; otherwise the solution
is created, indexed, and the conversation marked processed with is_resolved
taken from analysis.get("successful", True). -/
def process_conversation_writes (messages : List SolutionExtractor.Msg)
    (analysis : SolutionExtractor.Analysis) : ProcessOutcome :=
  if messages.length < 2 then
    { marked_processed := true
      is_resolved := some false
      solution_created := false
      vector_added := false
      success := false }
  else if !pyTruthy analysis.error_summary || !pyTruthy analysis.solution then
    { marked_processed := true
      is_resolved := some false
      solution_created := false
      vector_added := false
      success := false }
  else
    { marked_processed := true
      is_resolved := some (analysis.successful.getD true)
      solution_created := true
      vector_added := true
      success := true }

end ConversationAnalyzer

/-- C8: when a due conversation's thread has fewer than 2 messages, or the
analysis lacks an error summary or lacks solution text, processing marks the
conversation processed with is_resolved = false, creates no Solution record,
adds nothing to the vector index, and returns False normally. -/
theorem claim_C8_insufficient_extraction (messages : List SolutionExtractor.Msg)
    (analysis : SolutionExtractor.Analysis)
    (h : messages.length < 2 ∨ pyTruthy analysis.error_summary = false ∨
      pyTruthy analysis.solution = false) :
    ConversationAnalyzer.process_conversation_writes messages analysis =
      { marked_processed := true
        is_resolved := some false
        solution_created := false
        vector_added := false
        success := false } := by
  rw [ConversationAnalyzer.process_conversation_writes]
  by_cases h2 : messages.length < 2
  · rw [if_pos h2]
  · rw [if_neg h2]
    rcases h with h | h | h
    · exact absurd h h2
    · rw [h]; simp
    · rw [h]; simp

theorem claim_C8_witness :
    ConversationAnalyzer.process_conversation_writes
        [⟨some "U1", some "hata"⟩, ⟨some "U2", some "tamam"⟩]
        ⟨some "", none, some "fix", none, none, none⟩ =
      { marked_processed := true
        is_resolved := some false
        solution_created := false
        vector_added := false
        success := false } :=
  claim_C8_insufficient_extraction
    [⟨some "U1", some "hata"⟩, ⟨some "U2", some "tamam"⟩]
    ⟨some "", none, some "fix", none, none, none⟩
    (Or.inr (Or.inl (by decide)))

namespace PersistencePipeline

/-- The SQL writes buffered (flushed, uncommitted) in the analyzer's session
while one conversation is processed. -/
structure SessionState where
  solution_flushed : Bool
  processed_marked : Bool
  expert_incremented : Bool
deriving DecidableEq, Repr

/-- The durable state after the batch: the relational rows actually committed
and the chroma vector store, which has no transaction and takes effect
immediately on add. -/
structure WorldState where
  db_solution : Bool
  db_processed : Bool
  db_expert_incremented : Bool
  vector_doc : Bool
deriving DecidableEq, Repr

/-- The persistence writes of the success path of
ConversationAnalyzer._process_conversation, in program order
(src/learning/analyzer.py lines 195-253): solution row flush, vector-store
add, conversation processed marker, expert counter increment. -/
inductive PersistStep where
  | create_solution
  | add_vector
  | mark_processed
  | increment_expert
deriving DecidableEq, Repr

def persistSteps : List PersistStep :=
  [.create_solution, .add_vector, .mark_processed, .increment_expert]

/-- Effect of one write: SQL writes land in the session buffer, the vector
write lands directly in the durable world. -/
def applyStep : PersistStep → SessionState × WorldState → SessionState × WorldState
  | .create_solution, (s, w) => ({ s with solution_flushed := true }, w)
  | .add_vector, (s, w) => (s, { w with vector_doc := true })
  | .mark_processed, (s, w) => ({ s with processed_marked := true }, w)
  | .increment_expert, (s, w) => ({ s with expert_incremented := true }, w)

/-- Run the write sequence for one conversation. failAt = some k means the
k-th write raises before taking effect; the later writes are skipped because
the exception propagates out of _process_conversation, where the batch loop
of process_pending_conversations catches it and continues. -/
def runSteps (failAt : Option Nat) : SessionState × WorldState :=
  (persistSteps.take (match failAt with
    | none => persistSteps.length
    | some k => k)).foldl
    (fun st step => applyStep step st)
    (⟨false, false, false⟩, ⟨false, false, false, false⟩)

/-- The session.commit() at the end of process_pending_conversations (and the
surrounding get_async_session context manager) publishes whatever the session
buffered; it runs even when a conversation in the batch failed, because the
per-conversation exception was caught inside the loop body. -/
def batchCommit (p : SessionState × WorldState) : WorldState :=
  { p.2 with
    db_solution := p.1.solution_flushed
    db_processed := p.1.processed_marked
    db_expert_incremented := p.1.expert_incremented }

/-- The durable state of one conversation's extraction outcome when the write
at index failAt raises (none: no failure). -/
def runConversationPersistence (failAt : Option Nat) : WorldState :=
  batchCommit (runSteps failAt)

end PersistencePipeline

/-- C1 divergence witness: when the mark_processed write raises (failAt = 2)
after the solution row was flushed and the vector document added, the final
commit of the batch still persists the Solution row and the vector document
while is_processed remains false — the writes of one extraction outcome are
not all-or-nothing, contradicting the grouped-persistence claim: a solution
is persisted while the conversation is not marked processed (and a later
retry of the still-eligible conversation would duplicate it). The same
happens for a failing vector add (failAt = 1): the solution row alone is
committed. -/
theorem claim_C1_partial_commit :
    (PersistencePipeline.runConversationPersistence (some 2)).db_solution = true ∧
    (PersistencePipeline.runConversationPersistence (some 2)).vector_doc = true ∧
    (PersistencePipeline.runConversationPersistence (some 2)).db_processed = false ∧
    (PersistencePipeline.runConversationPersistence (some 1)).db_solution = true ∧
    (PersistencePipeline.runConversationPersistence (some 1)).db_processed = false ∧
    PersistencePipeline.runConversationPersistence none =
      { db_solution := true
        db_processed := true
        db_expert_incremented := true
        vector_doc := true } := by
  decide

end RecycleOps
